import Mathlib

/-!
Verification development for the hauntoloscope session state engine.

The definitions below are shallow embeddings of the TypeScript/JavaScript
source: `src/App.js` (session controller, timeline store, article ledger,
interpolation merger, bundle codec) and `src/lib/groq.ts` (generation
client with bounded retry).  JavaScript objects keyed by entry id are
modelled as association lists; async handlers are split into their
synchronous prefix ("begin", everything before the first `await`) and
their completion continuation ("complete", the code that runs when the
generation client's promise settles), with the client's outcome passed
in explicitly.
-/

namespace Hauntoloscope

/-- Association-list lookup, modelling JavaScript object property read
`m[k]` (returns `none` when the key is absent, i.e. `undefined`). -/
def alookup {α : Type} : List (String × α) → String → Option α
  | [], _ => none
  | (k, v) :: rest, key => if k = key then some v else alookup rest key

/-- Association-list update, modelling the spread update
`{ ...prev, [k]: v }`: replaces the binding for `k` if present,
otherwise appends it. -/
def aset {α : Type} : List (String × α) → String → α → List (String × α)
  | [], key, v => [(key, v)]
  | (k, w) :: rest, key, v =>
      if k = key then (key, v) :: rest else (k, w) :: aset rest key v

theorem alookup_aset_self {α : Type} (l : List (String × α)) (k : String) (v : α) :
    alookup (aset l k v) k = some v := by
  induction l with
  | nil => simp [aset, alookup]
  | cons hd tl ih =>
      obtain ⟨k', w⟩ := hd
      by_cases h : k' = k
      · simp [aset, alookup, h]
      · simp [aset, alookup, h, ih]

theorem alookup_aset_ne {α : Type} (l : List (String × α)) (k k' : String) (v : α)
    (h : k' ≠ k) : alookup (aset l k v) k' = alookup l k' := by
  have h' : k ≠ k' := Ne.symm h
  induction l with
  | nil => simp [aset, alookup, h']
  | cons hd tl ih =>
      obtain ⟨k0, w⟩ := hd
      by_cases h0 : k0 = k
      · subst h0
        simp [aset, alookup, h']
      · by_cases h1 : k0 = k'
        · simp [aset, alookup, h0, h1, h]
        · simp [aset, alookup, h0, h1, ih]

/-- `TimelineEntry` from `src/types.ts`: one node of the counterfactual
timeline.  `tone`, `anchorDate` and `threads` are optional fields. -/
structure TimelineEntry where
  id : String
  era : String
  title : String
  summary : String
  tone : Option String
  anchorDate : Option String
  threads : List String
deriving DecidableEq, Repr

/-- `TimelineResponse` from `src/types.ts`. -/
structure Timeline where
  timeline_title : String
  guiding_principle : String
  entries : List TimelineEntry
deriving DecidableEq, Repr

/-- `ArticleResponse` sidebar from `src/types.ts`. -/
structure Sidebar where
  title : String
  items : List String
deriving DecidableEq, Repr

/-- `ArticleResponse` from `src/types.ts`. -/
structure Article where
  headline : String
  dateline : String
  lede : String
  body : List String
  sidebar : Option Sidebar
  pull_quote : Option String
deriving DecidableEq, Repr

/-- The ids of a list of entries, in order. -/
def entryIds (l : List TimelineEntry) : List String := l.map TimelineEntry.id

/-- `newEntries.some((existing) => existing.id === addition.id)` in
`handleInterpolations`. -/
def hasId (l : List TimelineEntry) (i : String) : Bool :=
  l.any (fun e => e.id = i)

/-- `array.splice(pos, 0, a)` on a JavaScript array: insert `a` at
position `pos`, clamping to the array length (JS clamps an
out-of-range start index to `length`). -/
def spliceInsert (l : List TimelineEntry) (pos : Nat) (a : TimelineEntry) :
    List TimelineEntry :=
  l.take pos ++ a :: l.drop pos

/-- One iteration of the `additions.forEach((addition, offset) => ...)`
loop in `handleInterpolations` (src/App.js lines 238-243): skip the
candidate if its id already occurs anywhere in the growing sequence,
otherwise splice it in at `insertIndex + offset`.  The `offset`
component of the state is the forEach index and advances on every
candidate, skipped or not. -/
def mergeStep (insertIndex : Nat) :
    List TimelineEntry × Nat → TimelineEntry → List TimelineEntry × Nat :=
  fun st addition =>
    if hasId st.1 addition.id then (st.1, st.2 + 1)
    else (spliceInsert st.1 (insertIndex + st.2) addition, st.2 + 1)

/-- `entries.findIndex((item) => item.id === anchorId)`, as an
`Option Nat` (`none` for -1). -/
def findAnchorIndex : List TimelineEntry → String → Option Nat
  | [], _ => none
  | e :: rest, anchorId =>
      if e.id = anchorId then some 0
      else (findAnchorIndex rest anchorId).map (· + 1)

/-- The interpolation merge of `handleInterpolations`
(src/App.js lines 236-243): compute the anchor's index in the captured
entry sequence, set `insertIndex` to one past it (or the end when the
anchor is not found), then run the forEach splice loop over the
candidate entries. -/
def mergeAdditions (entries : List TimelineEntry) (anchorId : String)
    (additions : List TimelineEntry) : List TimelineEntry :=
  let insertIndex :=
    match findAnchorIndex entries anchorId with
    | some i => i + 1
    | none => entries.length
  (additions.foldl (mergeStep insertIndex) (entries, 0)).1

/-- A sequence of interpolation merges applied one after the other,
each anchored at some entry id with some candidate batch. -/
def applyMerges (entries : List TimelineEntry)
    (ops : List (String × List TimelineEntry)) : List TimelineEntry :=
  ops.foldl (fun cur op => mergeAdditions cur op.1 op.2) entries

/-- `seedEvent.trim().replace(/\s+/g, " ")`'s replace step: every maximal
run of whitespace characters becomes a single space. -/
def collapseWsAux : List Char → Bool → List Char
  | [], _ => []
  | c :: rest, prevWs =>
      if c.isWhitespace then
        if prevWs then collapseWsAux rest true
        else ' ' :: collapseWsAux rest true
      else c :: collapseWsAux rest false

/-- `s.replace(/\s+/g, " ")`. -/
def collapseWs (s : String) : String := ⟨collapseWsAux s.data false⟩

/-- JavaScript `s.trim()`: strip leading and trailing whitespace. -/
def jsTrim (s : String) : String :=
  ⟨((s.data.dropWhile Char.isWhitespace).reverse.dropWhile Char.isWhitespace).reverse⟩

/-- JavaScript `s.toUpperCase()` (on the characters the app produces). -/
def jsToUpper (s : String) : String := ⟨s.data.map Char.toUpper⟩

/-- JavaScript `a || b` over strings/optional strings: `a` when it is a
non-empty (truthy) string, otherwise `b`. -/
def jsOrStr (a : Option String) (b : String) : String :=
  match a with
  | some s => if s = "" then b else s
  | none => b

/-- `createSeedSummary` (src/App.js lines 86-94): normalize the seed
(trim, then collapse whitespace runs), substitute the fixed placeholder
when empty, pick the trimmed timeline title and the first entry's
anchor date or else era, drop falsy (empty) parts, join with " • " and
uppercase. -/
def createSeedSummary (seedEvent : String) (timeline : Timeline) : String :=
  let normalizedSeed := collapseWs (jsTrim seedEvent)
  let base := if normalizedSeed = "" then "Unspecified Counterfactual" else normalizedSeed
  let headline := jsTrim timeline.timeline_title
  let anchor :=
    match timeline.entries.head? with
    | some firstEntry => jsOrStr firstEntry.anchorDate (jsOrStr (some firstEntry.era) "")
    | none => ""
  let parts := [base, headline, anchor].filter (fun p => p ≠ "")
  jsToUpper (String.intercalate " • " parts)

/-- Per-entry article state from `App.js` (`articles[id]`): the stored
variants are `loading` (request in flight), `ready data`, and
`error msg`; an id with no binding is absent. -/
inductive ArticleStatus where
  | loading
  | ready (data : Article)
  | error (msg : String)
deriving DecidableEq, Repr

/-- Per-entry interpolation status from `App.js`
(`interpolationStatus[id]`): the code only ever stores the strings
"loading" and "idle"; an id with no binding is absent. -/
inductive InterpStatus where
  | loading
  | idle
deriving DecidableEq, Repr

/-- The React component state of `App` (src/App.js lines 152-161) that
the session controller reads and writes.  `articles`,
`interpolationStatus` and `interpolationErrors` are objects keyed by
entry id, modelled as association lists. -/
structure Session where
  apiKey : String
  seedEvent : String
  timeline : Option Timeline
  articles : List (String × ArticleStatus)
  seedSummary : String
  interpolationStatus : List (String × InterpStatus)
  interpolationErrors : List (String × Option String)
  activeEntryId : Option String
  isGeneratingTimeline : Bool
  error : Option String
deriving DecidableEq, Repr

/-- The synchronous prefix of `handleSelectEntry` (src/App.js lines
191-203), everything before the `await generateArticle(...)`: set the
active entry, bail out without a client call when the api key or
timeline is missing, bail out (no-op) when the entry's article is
already `loading` or `ready`, otherwise mark it `loading`.  The `Bool`
result records whether a Generation Client call is issued. -/
def selectEntryBegin (s : Session) (entry : TimelineEntry) : Session × Bool :=
  let s := { s with activeEntryId := some entry.id }
  if s.apiKey = "" ∨ s.timeline = none then (s, false)
  else
    match alookup s.articles entry.id with
    | some ArticleStatus.loading => (s, false)
    | some (ArticleStatus.ready _) => (s, false)
    | _ => ({ s with articles := aset s.articles entry.id ArticleStatus.loading }, true)

/-- The continuation of `handleSelectEntry` (src/App.js lines 204-216)
run when `generateArticle` settles: store `ready data` on success or
`error msg` on failure for the captured entry id, touching nothing
else. -/
def selectEntryComplete (s : Session) (entryId : String)
    (result : Except String Article) : Session :=
  match result with
  | Except.ok article =>
      { s with articles := aset s.articles entryId (ArticleStatus.ready article) }
  | Except.error msg =>
      { s with articles := aset s.articles entryId (ArticleStatus.error msg) }

/-- The synchronous prefix of `handleInterpolations` (src/App.js lines
218-226), everything before the `await generateInterpolations(...)`:
return immediately when the timeline or api key is missing, otherwise
clear the entry's interpolation error, mark its status "loading", and
issue the client call.  There is no check of the current interpolation
status.  The `Bool` result records whether a Generation Client call is
issued. -/
def interpolationBegin (s : Session) (entry : TimelineEntry) : Session × Bool :=
  match s.timeline with
  | none => (s, false)
  | some _ =>
      if s.apiKey = "" then (s, false)
      else
        ({ s with
            interpolationErrors := aset s.interpolationErrors entry.id none,
            interpolationStatus := aset s.interpolationStatus entry.id InterpStatus.loading },
         true)

/-- The continuation of `handleInterpolations` (src/App.js lines
227-253) run when `generateInterpolations` settles, parameterised by
the timeline value `t` captured by the handler's closure before the
await.  Success with a non-empty batch merges the candidates after the
anchor and installs the merged timeline; success with an empty batch
returns early (`if (!additions?.length) return`); failure records the
message in the per-entry error map and in the session-wide `error`
field.  The `finally` clause sets the entry's interpolation status to
"idle" on every path. -/
def interpolationComplete (s : Session) (t : Timeline) (entry : TimelineEntry)
    (result : Except String (List TimelineEntry)) : Session :=
  let base :=
    match result with
    | Except.ok additions =>
        if additions.isEmpty then s
        else
          { s with
              timeline :=
                some { t with entries := mergeAdditions t.entries entry.id additions } }
    | Except.error msg =>
        { s with
            interpolationErrors := aset s.interpolationErrors entry.id (some msg),
            error := some msg }
  { base with
      interpolationStatus := aset base.interpolationStatus entry.id InterpStatus.idle }

/-- `HauntoloscopeBundle` from `src/types.ts`: the portable export
document.  The article mapping is an association list from entry id to
article. -/
structure Bundle where
  seed_event : String
  seed_summary : Option String
  generated_at : String
  timeline : Timeline
  articles : List (String × Article)
deriving DecidableEq, Repr

/-- `Object.entries(articles).filter(([, value]) => value.status ===
"ready" && value.data).map(([key, value]) => [key, value.data])` from
`handleExport` (src/App.js lines 263-265). -/
def readyArticles (arts : List (String × ArticleStatus)) : List (String × Article) :=
  arts.filterMap fun kv =>
    match kv.2 with
    | ArticleStatus.ready d => some (kv.1, d)
    | _ => none

/-- `handleExport` (src/App.js lines 255-266) on a session whose
timeline is `t`: the bundle carries the seed event, the seed summary,
a generation timestamp, the timeline, and exactly the articles whose
status is `ready`. -/
def encodeBundle (s : Session) (t : Timeline) (generatedAt : String) : Bundle :=
  { seed_event := s.seedEvent
    seed_summary := some s.seedSummary
    generated_at := generatedAt
    timeline := t
    articles := readyArticles s.articles }

/-- The success path of `handleImport` (src/App.js lines 279-299) on a
well-shaped bundle: install the bundle's seed event and timeline, turn
every article in the bundle's mapping into `ready data` (all other ids
become absent), take the bundle's seed summary or derive one, and clear
interpolation state, active selection and the session error. -/
def decodeBundle (s : Session) (b : Bundle) : Session :=
  { s with
      seedEvent := b.seed_event
      timeline := some b.timeline
      articles := b.articles.map fun kv => (kv.1, ArticleStatus.ready kv.2)
      seedSummary :=
        match b.seed_summary with
        | some summary => if summary = "" then createSeedSummary b.seed_event b.timeline else summary
        | none => createSeedSummary b.seed_event b.timeline
      interpolationStatus := []
      interpolationErrors := []
      activeEntryId := none
      error := none }

/-- The errors `groqChat` (src/lib/groq.ts lines 88-115) can throw:
an HTTP failure, a response with missing/empty message content, a
schema failure (the content string is not valid JSON), or the wrapper
`new Error(String(lastError))` produced when a non-Error value is
rethrown. -/
inductive GroqError where
  | http (status : Nat) (body : String)
  | missingContent
  | schema (raw : String)
  | wrapped (msg : String)
deriving DecidableEq, Repr

/-- The observable part of one fetch to the Groq endpoint: `response.ok`
and `response.status`, the raw body text (read on HTTP failure), and
`json.choices[0]?.message?.content` (`none` when the path is absent). -/
structure GroqHttpResponse where
  ok : Bool
  status : Nat
  bodyText : String
  content : Option String
deriving DecidableEq, Repr

/-- `groqChat` (src/lib/groq.ts lines 88-115) over one response, with
`JSON.parse` of the content string supplied as the `parse` collaborator:
HTTP failure throws, missing or empty (falsy) content throws, content
that does not parse rethrows the parse error as a schema failure,
otherwise the parsed value is returned. -/
def groqChat {α : Type} (parse : String → Option α) (resp : GroqHttpResponse) :
    Except GroqError α :=
  if resp.ok = false then Except.error (GroqError.http resp.status resp.bodyText)
  else
    match resp.content with
    | none => Except.error GroqError.missingContent
    | some raw =>
        if raw = "" then Except.error GroqError.missingContent
        else
          match parse raw with
          | some v => Except.ok v
          | none => Except.error (GroqError.schema raw)

/-- The retry loop of `groqChatWithRetry` (src/lib/groq.ts lines
125-138).  `call k` is the outcome of the k-th `groqChat` attempt;
`remaining` counts the attempts still allowed (so `remaining = 1` is
the final attempt, after which the loop breaks and the last error is
thrown).  The result carries the final outcome, the total number of
client calls made, and the list of delays (in ms) slept between
attempts — `200 * attempt` after the failed attempt number `attempt`. -/
def groqRetryGo {α : Type} (call : Nat → Except GroqError α) :
    Nat → Nat → Nat → List Nat → Except GroqError α × Nat × List Nat
  | 0, _, calls, delays => (Except.error (GroqError.wrapped "undefined"), calls, delays)
  | 1, attempt, calls, delays =>
      match call attempt with
      | Except.ok v => (Except.ok v, calls + 1, delays)
      | Except.error e => (Except.error e, calls + 1, delays)
  | (r + 2), attempt, calls, delays =>
      match call attempt with
      | Except.ok v => (Except.ok v, calls + 1, delays)
      | Except.error _ =>
          groqRetryGo call (r + 1) (attempt + 1) (calls + 1) (delays ++ [200 * attempt])

/-- `groqChatWithRetry(apiKey, body, attempts)` (src/lib/groq.ts lines
125-138): run the attempt loop from attempt 1.  The source's default
attempt count is 3. -/
def groqChatWithRetry {α : Type} (call : Nat → Except GroqError α) (attempts : Nat) :
    Except GroqError α × Nat × List Nat :=
  groqRetryGo call attempts 1 0 []

/-!
`handleImport` (src/App.js lines 279-303) performs no shape validation:
it runs `JSON.parse` and then reads properties off whatever value came
back, calling the React state setters one by one.  To settle what it
does on malformed documents we model the handler over untyped
JavaScript values, with property reads that can throw (on `null` /
`undefined` receivers) and JavaScript truthiness. -/

/-- An untyped JavaScript value as produced by `JSON.parse`, plus
`undefined`. -/
inductive JsValue where
  | undef
  | null
  | bool (b : Bool)
  | num (n : Int)
  | str (s : String)
  | arr (elems : List JsValue)
  | obj (fields : List (String × JsValue))

/-- JavaScript truthiness. -/
def truthy : JsValue → Bool
  | JsValue.undef => false
  | JsValue.null => false
  | JsValue.bool b => b
  | JsValue.num n => decide (n ≠ 0)
  | JsValue.str s => decide (s ≠ "")
  | JsValue.arr _ => true
  | JsValue.obj _ => true

/-- Plain property read `v.k`: throws a TypeError on `undefined` and
`null`, returns the field (or `undefined`) on objects, and `undefined`
on other primitives (whose prototypes carry none of the bundle's
keys). -/
def getProp : JsValue → String → Except String JsValue
  | JsValue.undef, k =>
      Except.error ("Cannot read properties of undefined (reading " ++ k ++ ")")
  | JsValue.null, k =>
      Except.error ("Cannot read properties of null (reading " ++ k ++ ")")
  | JsValue.obj fields, k =>
      Except.ok (match alookup fields k with | some v => v | none => JsValue.undef)
  | _, _ => Except.ok JsValue.undef

/-- Optional-chaining property read `v?.k`: `undefined` when the
receiver is `null`/`undefined`, otherwise as `getProp` (which cannot
throw then). -/
def optProp (v : JsValue) (k : String) : JsValue :=
  match v with
  | JsValue.obj fields => (match alookup fields k with | some w => w | none => JsValue.undef)
  | _ => JsValue.undef

/-- `Object.entries(v)`: throws on `undefined`/`null`, yields the own
fields of an object, index/character pairs for strings, index/element
pairs for arrays, and nothing for other primitives. -/
def jsEntries : JsValue → Except String (List (String × JsValue))
  | JsValue.obj fields => Except.ok fields
  | JsValue.arr xs => Except.ok (xs.enum.map fun p => (toString p.1, p.2))
  | JsValue.str s =>
      Except.ok (s.data.enum.map fun p => (toString p.1, JsValue.str (String.mk [p.2])))
  | JsValue.num _ => Except.ok []
  | JsValue.bool _ => Except.ok []
  | JsValue.undef => Except.error "Cannot convert undefined or null to object"
  | JsValue.null => Except.error "Cannot convert undefined or null to object"

mutual

/-- JavaScript `String(v)` as used by `Array.prototype.join`. -/
def jsStringOf : JsValue → String
  | JsValue.undef => "undefined"
  | JsValue.null => "null"
  | JsValue.bool b => cond b "true" "false"
  | JsValue.num n => toString n
  | JsValue.str s => s
  | JsValue.arr xs => String.intercalate "," (jsStringOfList xs)
  | JsValue.obj _ => "[object Object]"

def jsStringOfList : List JsValue → List String
  | [] => []
  | v :: rest => jsStringOf v :: jsStringOfList rest

end

/-- A method call `v.trim()`: only strings have `trim`; `undefined` and
`null` receivers throw on the property read, other primitives throw
"not a function". -/
def jsTrimCall : JsValue → Except String String
  | JsValue.str s => Except.ok (jsTrim s)
  | JsValue.undef => Except.error "Cannot read properties of undefined (reading trim)"
  | JsValue.null => Except.error "Cannot read properties of null (reading trim)"
  | _ => Except.error "trim is not a function"

/-- `v[0]` as in `timeline.entries[0]`: throws on `undefined`/`null`,
indexes arrays and strings, looks up the "0" field of objects, and is
`undefined` on other primitives. -/
def jsIndexZero : JsValue → Except String JsValue
  | JsValue.arr xs =>
      Except.ok (match xs.head? with | some v => v | none => JsValue.undef)
  | JsValue.obj fields =>
      Except.ok (match alookup fields "0" with | some v => v | none => JsValue.undef)
  | JsValue.str s =>
      Except.ok (match s.data.head? with
        | some c => JsValue.str (String.mk [c])
        | none => JsValue.undef)
  | JsValue.undef => Except.error "Cannot read properties of undefined (reading 0)"
  | JsValue.null => Except.error "Cannot read properties of null (reading 0)"
  | _ => Except.ok JsValue.undef

/-- `createSeedSummary` (src/App.js lines 86-94) evaluated on untyped
arguments, as `handleImport` calls it: each JavaScript operation that
can throw is modelled in `Except`. -/
def createSeedSummaryJs (seedEvent timeline : JsValue) : Except String String := do
  let trimmed ← jsTrimCall seedEvent
  let normalizedSeed := collapseWs trimmed
  let base := if normalizedSeed = "" then "Unspecified Counterfactual" else normalizedSeed
  let tt ← getProp timeline "timeline_title"
  let headline ←
    match tt with
    | JsValue.str s => pure (jsTrim s)
    | JsValue.undef => pure ""
    | JsValue.null => pure ""
    | _ => Except.error "trim is not a function"
  let entriesV ← getProp timeline "entries"
  let firstEntry ← jsIndexZero entriesV
  let anchorDateV := optProp firstEntry "anchorDate"
  let eraV := optProp firstEntry "era"
  let anchorV :=
    if truthy anchorDateV then anchorDateV
    else if truthy eraV then eraV
    else JsValue.str ""
  let parts := [JsValue.str base, JsValue.str headline, anchorV].filter truthy
  pure (jsToUpper (String.intercalate " • " (jsStringOfList parts)))

/-- The component state touched by `handleImport`, with every field an
untyped JavaScript value (the setters store whatever the document
supplied). -/
structure JsSession where
  seedEvent : JsValue
  timeline : JsValue
  articles : JsValue
  seedSummary : JsValue
  interpolationStatus : JsValue
  interpolationErrors : JsValue
  activeEntryId : JsValue
  error : JsValue

/-- The body of `handleImport`'s `try` block after `JSON.parse`
succeeded (src/App.js lines 283-298), applied step by step: each React
state setter that has already run keeps its effect even if a later step
throws, so a thrown step returns the partially-updated session together
with the error message. -/
def importSteps (s : JsSession) (bundle : JsValue) :
    Except (JsSession × String) JsSession :=
  match getProp bundle "seed_event" with
  | Except.error m => Except.error (s, m)
  | Except.ok se =>
  let s1 := { s with seedEvent := se }
  match getProp bundle "timeline" with
  | Except.error m => Except.error (s1, m)
  | Except.ok tl =>
  let s2 := { s1 with timeline := tl }
  match getProp bundle "articles" with
  | Except.error m => Except.error (s2, m)
  | Except.ok arts =>
  match jsEntries (if truthy arts then arts else JsValue.obj []) with
  | Except.error m => Except.error (s2, m)
  | Except.ok entryList =>
  let s3 := { s2 with
      articles := JsValue.obj (entryList.map fun kv =>
        (kv.1, JsValue.obj [("status", JsValue.str "ready"), ("data", kv.2)])) }
  match getProp bundle "seed_summary" with
  | Except.error m => Except.error (s3, m)
  | Except.ok ss =>
  let finish := fun (s4 : JsSession) =>
    Except.ok { s4 with
        interpolationStatus := JsValue.obj []
        interpolationErrors := JsValue.obj []
        activeEntryId := JsValue.null
        error := JsValue.null }
  if truthy ss then finish { s3 with seedSummary := ss }
  else
    match createSeedSummaryJs se tl with
    | Except.error m => Except.error (s3, m)
    | Except.ok summary => finish { s3 with seedSummary := JsValue.str summary }

/-- `handleImport` (src/App.js lines 279-303): `parsed` is the outcome
of `await file.text()` followed by `JSON.parse` (an `Except.error`
models a read or parse failure).  The `catch` sets the session-wide
error to a descriptive message, keeping whatever state updates already
ran. -/
def handleImportJs (s : JsSession) (parsed : Except String JsValue) : JsSession :=
  match parsed with
  | Except.error msg =>
      { s with error := JsValue.str ("Failed to import bundle: " ++ msg) }
  | Except.ok bundle =>
      match importSteps s bundle with
      | Except.ok s4 => s4
      | Except.error (sp, msg) =>
          { sp with error := JsValue.str ("Failed to import bundle: " ++ msg) }

/-! Concrete fixtures used by the example scenarios and witnesses. -/

/-- A minimal timeline entry for scenario fixtures. -/
def mkEntry (i era title : String) (anchorDate : Option String) : TimelineEntry :=
  { id := i, era := era, title := title, summary := "summary of " ++ title,
    tone := none, anchorDate := anchorDate, threads := [] }

def entryA : TimelineEntry := mkEntry "a" "Spring 1969" "Event A" (some "1969-03-01")

def entryB : TimelineEntry := mkEntry "b" "Summer 1969" "Event B" (some "1969-07-01")

def entryC : TimelineEntry := mkEntry "c" "Winter 1969" "Event C" (some "1969-12-01")

def entryX : TimelineEntry := mkEntry "x" "August 1969" "Bridge X" (some "1969-08-01")

def entryY : TimelineEntry := mkEntry "y" "September 1969" "Bridge Y" (some "1969-09-01")

/-- A candidate whose id collides with the existing entry `b` but whose
payload differs from it. -/
def entryBColl : TimelineEntry := mkEntry "b" "Summer 1969" "Colliding B" none

/-- A second candidate in the same batch sharing the id of `entryX`. -/
def entryXColl : TimelineEntry := mkEntry "x" "August 1969" "Second X" none

/-- The `[A, B, C]` timeline of the spec's example scenario. -/
def timelineABC : Timeline :=
  { timeline_title := "Counterfactual 1969", guiding_principle := "principle",
    entries := [entryA, entryB, entryC] }

/-- A session holding `timelineABC`, with an api key and no per-entry
state. -/
def sessionABC : Session :=
  { apiKey := "gsk_test", seedEvent := "the seed event",
    timeline := some timelineABC, articles := [], seedSummary := "SUMMARY",
    interpolationStatus := [], interpolationErrors := [], activeEntryId := none,
    isGeneratingTimeline := false, error := none }

def articleA : Article :=
  { headline := "Headline A", dateline := "CITY — July 21, 1969",
    lede := "lede", body := ["first", "second"], sidebar := none, pull_quote := none }

def articleB : Article :=
  { headline := "Headline B", dateline := "CITY — December 1, 1969",
    lede := "lede b", body := ["only"], sidebar := none, pull_quote := some "quote" }

/-- A session with one ready article, one pending and one failed, for
the bundle round-trip scenario. -/
def sessionMixed : Session :=
  { sessionABC with
      articles :=
        [("a", ArticleStatus.ready articleA), ("b", ArticleStatus.loading),
         ("c", ArticleStatus.error "timeout")] }

/-- The timeline of the seed-summary example: title "Lunar Silence",
first entry anchored at 1969-07-21. -/
def lunarTimeline : Timeline :=
  { timeline_title := "Lunar Silence", guiding_principle := "principle",
    entries := [mkEntry "lunar-silence" "Summer 1969" "Silent Sea" (some "1969-07-21")] }

/-- A timeline whose first entry has no anchor date, exercising the era
fallback of the seed summary. -/
def eraOnlyTimeline : Timeline :=
  { timeline_title := "Title", guiding_principle := "principle",
    entries := [mkEntry "era-only" "Autumn 1957" "Era Event" none] }

/-- A timeline whose title is blank and which has no entries, so only
the seed part survives the summary's falsy filter. -/
def blankTimeline : Timeline :=
  { timeline_title := "   ", guiding_principle := "principle", entries := [] }

/-- An untyped previous session for the import scenarios. -/
def jsSession0 : JsSession :=
  { seedEvent := JsValue.str "old seed"
    timeline := JsValue.obj
      [("timeline_title", JsValue.str "Old Title"),
       ("guiding_principle", JsValue.str "principle"),
       ("entries", JsValue.arr [])]
    articles := JsValue.obj [("a", JsValue.obj [("status", JsValue.str "ready")])]
    seedSummary := JsValue.str "OLD SUMMARY"
    interpolationStatus := JsValue.obj [("a", JsValue.str "idle")]
    interpolationErrors := JsValue.obj []
    activeEntryId := JsValue.str "a"
    error := JsValue.null }

/-- A document that parses as JSON but does not have the bundle shape:
an object with only a `seed_event` field. -/
def shapelessDoc : JsValue := JsValue.obj [("seed_event", JsValue.str "x")]

/-- A generation-client attempt that always fails with a schema error
(`groqChat` on an OK response whose content is not valid JSON). -/
def schemaFailCall : Nat → Except GroqError Nat := fun _ =>
  groqChat (fun _ => (none : Option Nat))
    { ok := true, status := 200, bodyText := "", content := some "not json" }

/-! Lemmas about the interpolation merge. -/

theorem entryIds_append (l1 l2 : List TimelineEntry) :
    entryIds (l1 ++ l2) = entryIds l1 ++ entryIds l2 :=
  List.map_append _ _ _

theorem hasId_iff (l : List TimelineEntry) (i : String) :
    hasId l i = true ↔ i ∈ entryIds l := by
  simp [hasId, entryIds, List.any_eq_true, List.mem_map]

theorem spliceInsert_boundary (pre post : List TimelineEntry) (a : TimelineEntry) :
    spliceInsert (pre ++ post) pre.length a = pre ++ a :: post := by
  unfold spliceInsert
  rw [List.take_left, List.drop_left]

/-- Running the forEach splice loop over a batch of candidates that are
fresh (no id occurs among the existing entries) and pairwise distinct,
starting from a state where `mid` candidates have already been inserted
right after the `pre` prefix, appends the whole batch contiguously. -/
theorem mergeFold_fresh (adds : List TimelineEntry) :
    ∀ (pre mid post : List TimelineEntry),
      (∀ a ∈ adds, a.id ∉ entryIds pre ∧ a.id ∉ entryIds mid ∧ a.id ∉ entryIds post) →
      ((adds.map TimelineEntry.id).Nodup) →
      (adds.foldl (mergeStep pre.length) (pre ++ mid ++ post, mid.length)).1
        = pre ++ mid ++ adds ++ post := by
  induction adds with
  | nil => intro pre mid post _ _; simp
  | cons a rest ih =>
      intro pre mid post hfresh hnd
      obtain ⟨hpa, hma, hqa⟩ := hfresh a (List.mem_cons_self a rest)
      have hnot : hasId (pre ++ mid ++ post) a.id = false := by
        rw [Bool.eq_false_iff]
        intro hcontra
        rw [hasId_iff] at hcontra
        rw [entryIds_append, entryIds_append] at hcontra
        simp only [List.mem_append] at hcontra
        tauto
      have hsplice :
          spliceInsert (pre ++ mid ++ post) (pre.length + mid.length) a
            = pre ++ mid ++ a :: post := by
        have h1 : pre ++ mid ++ post = (pre ++ mid) ++ post := by
          rw [List.append_assoc]
        have h2 : pre.length + mid.length = (pre ++ mid).length := by
          rw [List.length_append]
        rw [h1, h2, spliceInsert_boundary]
      have hstep :
          mergeStep pre.length (pre ++ mid ++ post, mid.length) a
            = (pre ++ mid ++ a :: post, mid.length + 1) := by
        simp only [mergeStep, hnot, Bool.false_eq_true, if_false]
        rw [hsplice]
      have hnd' : ((rest.map TimelineEntry.id).Nodup) := (List.nodup_cons.mp hnd).2
      have hane : a.id ∉ rest.map TimelineEntry.id := (List.nodup_cons.mp hnd).1
      have hfresh' :
          ∀ b ∈ rest, b.id ∉ entryIds pre ∧ b.id ∉ entryIds (mid ++ [a]) ∧
            b.id ∉ entryIds post := by
        intro b hb
        obtain ⟨hp, hm, hq⟩ := hfresh b (List.mem_cons_of_mem a hb)
        refine ⟨hp, ?_, hq⟩
        rw [entryIds_append]
        simp only [List.mem_append, entryIds, List.map_cons, List.map_nil,
          List.mem_singleton]
        rintro (hbm | hba)
        · exact hm hbm
        · exact hane (hba ▸ List.mem_map_of_mem TimelineEntry.id hb)
      have hmid : pre ++ (mid ++ [a]) ++ post = pre ++ mid ++ a :: post := by
        simp
      have := ih pre (mid ++ [a]) post hfresh' hnd'
      rw [hmid] at this
      rw [List.foldl_cons, hstep]
      have hlen : (mid ++ [a]).length = mid.length + 1 := by simp
      rw [hlen] at this
      rw [this]
      simp

/-- The index returned by `findAnchorIndex` is a valid position. -/
theorem findAnchorIndex_lt_length :
    ∀ (l : List TimelineEntry) (anchorId : String) (i : Nat),
      findAnchorIndex l anchorId = some i → i < l.length := by
  intro l
  induction l with
  | nil => intro anchorId i h; simp [findAnchorIndex] at h
  | cons e rest ih =>
      intro anchorId i h
      by_cases he : e.id = anchorId
      · simp [findAnchorIndex, he] at h
        simp only [List.length_cons]
        omega
      · simp [findAnchorIndex, he] at h
        obtain ⟨j, hj, hji⟩ := h
        have := ih anchorId j hj
        simp only [List.length_cons]
        omega

/-- When every candidate id is fresh and the batch has no internal
duplicates, the interpolation merge places the whole batch contiguously
immediately after the anchor. -/
theorem mergeAdditions_fresh (entries : List TimelineEntry) (anchorId : String)
    (additions : List TimelineEntry) (i : Nat)
    (hfind : findAnchorIndex entries anchorId = some i)
    (hfresh : ∀ a ∈ additions, a.id ∉ entryIds entries)
    (hnd : (additions.map TimelineEntry.id).Nodup) :
    mergeAdditions entries anchorId additions
      = entries.take (i + 1) ++ additions ++ entries.drop (i + 1) := by
  have hlt : i < entries.length := findAnchorIndex_lt_length entries anchorId i hfind
  have hlen : (entries.take (i + 1)).length = i + 1 := by
    rw [List.length_take]
    omega
  have hsplit : entries.take (i + 1) ++ entries.drop (i + 1) = entries :=
    List.take_append_drop (i + 1) entries
  have hfresh' :
      ∀ a ∈ additions, a.id ∉ entryIds (entries.take (i + 1)) ∧
        a.id ∉ entryIds ([] : List TimelineEntry) ∧
        a.id ∉ entryIds (entries.drop (i + 1)) := by
    intro a ha
    have h := hfresh a ha
    rw [← hsplit, entryIds_append] at h
    simp only [List.mem_append] at h
    refine ⟨fun hx => h (Or.inl hx), ?_, fun hx => h (Or.inr hx)⟩
    simp [entryIds]
  have hfold := mergeFold_fresh additions (entries.take (i + 1)) []
    (entries.drop (i + 1)) hfresh' hnd
  simp only [mergeAdditions, hfind]
  simp only [List.append_nil] at hfold
  rw [hlen, hsplit] at hfold
  exact hfold

theorem entryIds_spliceInsert (l : List TimelineEntry) (pos : Nat) (a : TimelineEntry) :
    List.Perm (entryIds (spliceInsert l pos a)) (a.id :: entryIds l) := by
  unfold spliceInsert
  rw [entryIds_append]
  have : entryIds (a :: l.drop pos) = a.id :: entryIds (l.drop pos) := rfl
  rw [this]
  have hperm := @List.perm_middle _ a.id (entryIds (l.take pos))
    (entryIds (l.drop pos))
  refine hperm.trans ?_
  rw [← entryIds_append, List.take_append_drop]

/-- One forEach step preserves distinctness of the entry ids. -/
theorem mergeStep_nodup (insertIndex : Nat) (st : List TimelineEntry × Nat)
    (a : TimelineEntry) (h : (entryIds st.1).Nodup) :
    (entryIds (mergeStep insertIndex st a).1).Nodup := by
  unfold mergeStep
  by_cases hc : hasId st.1 a.id = true
  · simp [hc, h]
  · have hc' : hasId st.1 a.id = false := by
      rw [Bool.eq_false_iff]; exact hc
    simp only [hc', Bool.false_eq_true, if_false]
    have hperm := entryIds_spliceInsert st.1 (insertIndex + st.2) a
    rw [hperm.nodup_iff, List.nodup_cons]
    exact ⟨fun hmem => hc ((hasId_iff st.1 a.id).mpr hmem), h⟩

/-- One forEach step only ever inserts: the previous sequence is a
sublist of the new one. -/
theorem mergeStep_sublist (insertIndex : Nat) (st : List TimelineEntry × Nat)
    (a : TimelineEntry) : List.Sublist st.1 (mergeStep insertIndex st a).1 := by
  unfold mergeStep
  by_cases hc : hasId st.1 a.id = true
  · simp [hc]
  · have hc' : hasId st.1 a.id = false := by
      rw [Bool.eq_false_iff]; exact hc
    simp only [hc', Bool.false_eq_true, if_false]
    unfold spliceInsert
    have h1 : List.Sublist
        (st.1.take (insertIndex + st.2) ++ st.1.drop (insertIndex + st.2))
        (st.1.take (insertIndex + st.2) ++ a :: st.1.drop (insertIndex + st.2)) :=
      List.Sublist.append_left (List.sublist_cons_self a _) _
    rw [List.take_append_drop] at h1
    exact h1

theorem mergeFold_nodup (adds : List TimelineEntry) (insertIndex : Nat) :
    ∀ st : List TimelineEntry × Nat, (entryIds st.1).Nodup →
      (entryIds (adds.foldl (mergeStep insertIndex) st).1).Nodup := by
  induction adds with
  | nil => intro st h; exact h
  | cons a rest ih =>
      intro st h
      rw [List.foldl_cons]
      exact ih _ (mergeStep_nodup insertIndex st a h)

theorem mergeFold_sublist (adds : List TimelineEntry) (insertIndex : Nat) :
    ∀ st : List TimelineEntry × Nat,
      List.Sublist st.1 (adds.foldl (mergeStep insertIndex) st).1 := by
  induction adds with
  | nil => intro st; exact List.Sublist.refl _
  | cons a rest ih =>
      intro st
      rw [List.foldl_cons]
      exact (mergeStep_sublist insertIndex st a).trans (ih _)

/-- A single interpolation merge keeps the entry ids distinct. -/
theorem mergeAdditions_nodup (entries : List TimelineEntry) (anchorId : String)
    (additions : List TimelineEntry) (h : (entryIds entries).Nodup) :
    (entryIds (mergeAdditions entries anchorId additions)).Nodup := by
  unfold mergeAdditions
  exact mergeFold_nodup additions _ (entries, 0) h

/-- A single interpolation merge never reorders or drops the entries
already present. -/
theorem mergeAdditions_sublist (entries : List TimelineEntry) (anchorId : String)
    (additions : List TimelineEntry) :
    List.Sublist entries (mergeAdditions entries anchorId additions) := by
  unfold mergeAdditions
  exact mergeFold_sublist additions _ (entries, 0)

/-- Any sequence of interpolation merges keeps the ids distinct and
preserves the existing entries in order. -/
theorem applyMerges_invariants (ops : List (String × List TimelineEntry)) :
    ∀ entries : List TimelineEntry, (entryIds entries).Nodup →
      (entryIds (applyMerges entries ops)).Nodup ∧
        List.Sublist entries (applyMerges entries ops) := by
  induction ops with
  | nil => intro entries h; exact ⟨h, List.Sublist.refl _⟩
  | cons op rest ih =>
      intro entries h
      rw [applyMerges, List.foldl_cons]
      have hstep_nd := mergeAdditions_nodup entries op.1 op.2 h
      have hstep_sub := mergeAdditions_sublist entries op.1 op.2
      have hrest := ih (mergeAdditions entries op.1 op.2) hstep_nd
      rw [applyMerges] at hrest
      exact ⟨hrest.1, hstep_sub.trans hrest.2⟩

/-! Lemmas about the generation client's retry loop. -/

/-- When every attempt in the window fails, the retry loop makes one
call per allowed attempt, sleeps `200 * attempt` after each non-final
failed attempt, and surfaces the error of the final attempt. -/
theorem groqRetryGo_allfail {α : Type} (call : Nat → Except GroqError α) :
    ∀ (r attempt calls : Nat) (delays : List Nat),
      (∀ k, attempt ≤ k → k ≤ attempt + r → ∃ e, call k = Except.error e) →
      ∃ e, call (attempt + r) = Except.error e ∧
        groqRetryGo call (r + 1) attempt calls delays
          = (Except.error e, calls + r + 1,
             delays ++ (List.range r).map (fun j => 200 * (attempt + j))) := by
  intro r
  induction r with
  | zero =>
      intro attempt calls delays hfail
      obtain ⟨e, he⟩ := hfail attempt le_rfl (by omega)
      refine ⟨e, ?_, ?_⟩
      · simpa using he
      · simp [groqRetryGo, he]
  | succ r ih =>
      intro attempt calls delays hfail
      obtain ⟨e0, he0⟩ := hfail attempt le_rfl (by omega)
      obtain ⟨e, he, hgo⟩ := ih (attempt + 1) (calls + 1) (delays ++ [200 * attempt])
        (fun k hk1 hk2 => hfail k (by omega) (by omega))
      have hidx : attempt + 1 + r = attempt + (r + 1) := by omega
      rw [hidx] at he
      refine ⟨e, he, ?_⟩
      have hunfold :
          groqRetryGo call (r + 1 + 1) attempt calls delays
            = groqRetryGo call (r + 1) (attempt + 1) (calls + 1)
                (delays ++ [200 * attempt]) := by
        show groqRetryGo call (r + 2) attempt calls delays = _
        rw [groqRetryGo, he0]
      rw [hunfold, hgo]
      have hdel :
          delays ++ [200 * attempt] ++ (List.range r).map (fun j => 200 * (attempt + 1 + j))
            = delays ++ (List.range (r + 1)).map (fun j => 200 * (attempt + j)) := by
        rw [List.range_succ_eq_map]
        have hfun : (fun j => 200 * (attempt + 1 + j))
            = (fun j => 200 * (attempt + j)) ∘ Nat.succ := by
          funext j
          simp only [Function.comp_apply]
          omega
        simp [List.map_map, hfun]
      rw [hdel]
      have hc : calls + 1 + r + 1 = calls + (r + 1) + 1 := by omega
      rw [hc]

/-! Lemmas about the bundle codec's article mapping. -/

theorem alookup_eq_none_of_not_mem_keys {α : Type} (l : List (String × α))
    (id : String) (h : id ∉ l.map Prod.fst) : alookup l id = none := by
  induction l with
  | nil => rfl
  | cons kv rest ih =>
      simp only [List.map_cons, List.mem_cons] at h
      push_neg at h
      obtain ⟨h1, h2⟩ := h
      obtain ⟨k, v⟩ := kv
      simp only [alookup]
      rw [if_neg (fun hk => h1 (by simpa using hk.symm))]
      exact ih h2

theorem readyArticles_keys_subset (arts : List (String × ArticleStatus)) :
    ∀ x ∈ (readyArticles arts).map Prod.fst, x ∈ arts.map Prod.fst := by
  intro x hx
  simp only [readyArticles, List.mem_map, List.mem_filterMap] at hx
  obtain ⟨kv2, ⟨kv1, hmem, hmatch⟩, rfl⟩ := hx
  obtain ⟨k1, v1⟩ := kv1
  cases v1 with
  | ready d =>
      simp only at hmatch
      cases hmatch
      exact List.mem_map_of_mem Prod.fst hmem
  | loading => simp at hmatch
  | error m => simp at hmatch

theorem readyArticles_cons_ready (k : String) (d : Article)
    (rest : List (String × ArticleStatus)) :
    readyArticles ((k, ArticleStatus.ready d) :: rest) = (k, d) :: readyArticles rest := rfl

theorem readyArticles_cons_loading (k : String)
    (rest : List (String × ArticleStatus)) :
    readyArticles ((k, ArticleStatus.loading) :: rest) = readyArticles rest := rfl

theorem readyArticles_cons_err (k m : String)
    (rest : List (String × ArticleStatus)) :
    readyArticles ((k, ArticleStatus.error m) :: rest) = readyArticles rest := rfl

/-- Looking up an id in the exported `ready` article mapping, given
distinct keys: exactly the ready entries survive. -/
theorem alookup_readyArticles (arts : List (String × ArticleStatus)) (id : String)
    (hnd : (arts.map Prod.fst).Nodup) :
    alookup (readyArticles arts) id
      = (match alookup arts id with
         | some (ArticleStatus.ready d) => some d
         | _ => none) := by
  induction arts with
  | nil => rfl
  | cons kv rest ih =>
      obtain ⟨k, v⟩ := kv
      have hnd' : (rest.map Prod.fst).Nodup := (List.nodup_cons.mp hnd).2
      have hknotin : k ∉ rest.map Prod.fst := (List.nodup_cons.mp hnd).1
      by_cases hk : k = id
      · subst hk
        have hnone : alookup (readyArticles rest) k = none :=
          alookup_eq_none_of_not_mem_keys _ k
            (fun hmem => hknotin (readyArticles_keys_subset rest k hmem))
        cases v with
        | ready d => rw [readyArticles_cons_ready]; simp [alookup]
        | loading => rw [readyArticles_cons_loading]; simp [alookup, hnone]
        | error m => rw [readyArticles_cons_err]; simp [alookup, hnone]
      · cases v with
        | ready d => rw [readyArticles_cons_ready]; simp [alookup, hk, ih hnd']
        | loading => rw [readyArticles_cons_loading]; simp [alookup, hk, ih hnd']
        | error m => rw [readyArticles_cons_err]; simp [alookup, hk, ih hnd']

/-- Looking up an id after the import turns every bundled article into
`ready`. -/
theorem alookup_map_ready (l : List (String × Article)) (id : String) :
    alookup (l.map fun kv => (kv.1, ArticleStatus.ready kv.2)) id
      = (alookup l id).map ArticleStatus.ready := by
  induction l with
  | nil => rfl
  | cons kv rest ih =>
      obtain ⟨k, v⟩ := kv
      by_cases hk : k = id
      · simp [alookup, hk]
      · simp [alookup, hk, ih]

/-! The claims. -/

/-- C1 (counterexample): the interpolation merge does not always place
the retained candidates contiguously after the anchor.  With timeline
`[A, B, C]` anchored at `B`, the candidate batch `[B2, X]` — whose
first candidate collides with the existing entry `b` — yields
`[A, B, C, X]`: the colliding candidate is dropped, but the splice
offset of the retained candidate `X` still counts the dropped one, so
`X` lands after `C` rather than right after the anchor. -/
theorem c1_collision_drop_counterexample :
    mergeAdditions [entryA, entryB, entryC] "b" [entryBColl, entryX]
      = [entryA, entryB, entryC, entryX] ∧
    mergeAdditions [entryA, entryB, entryC] "b" [entryBColl, entryX]
      ≠ [entryA, entryB, entryX, entryC] := by
  constructor
  · rfl
  · decide

/-- C1 (amended): both example scenarios hold — with entries
`[A, B, C]` anchored at `B`, candidates `[X, Y]` give
`[A, B, X, Y, C]` and `[X, B2]` (second candidate colliding with the
existing `b`) give `[A, B, X, C]` — and in general a colliding
candidate is dropped while the retained candidates keep their relative
order; the whole batch is placed contiguously immediately after the
anchor whenever no candidate id collides with an existing entry and the
batch has no internal duplicates (a dropped candidate occurring before
a retained one instead shifts the retained one past existing
entries). -/
theorem c1_collision_drop_amended (entries : List TimelineEntry) (anchorId : String)
    (additions : List TimelineEntry) (i : Nat)
    (hfind : findAnchorIndex entries anchorId = some i)
    (hfresh : ∀ a ∈ additions, a.id ∉ entryIds entries)
    (hnd : (additions.map TimelineEntry.id).Nodup) :
    mergeAdditions entries anchorId additions
      = entries.take (i + 1) ++ additions ++ entries.drop (i + 1) ∧
    mergeAdditions [entryA, entryB, entryC] "b" [entryX, entryY]
      = [entryA, entryB, entryX, entryY, entryC] ∧
    mergeAdditions [entryA, entryB, entryC] "b" [entryX, entryBColl]
      = [entryA, entryB, entryX, entryC] := by
  refine ⟨mergeAdditions_fresh entries anchorId additions i hfind hfresh hnd, rfl, rfl⟩

/-- C1 witness: the amended theorem applied to the `[A, B, C]` timeline
with fresh candidates `[X, Y]` anchored at `b` (index 1). -/
theorem c1_collision_drop_amended_witness :
    (findAnchorIndex [entryA, entryB, entryC] "b" = some 1 ∧
     (∀ a ∈ [entryX, entryY], a.id ∉ entryIds [entryA, entryB, entryC]) ∧
     ([entryX, entryY].map TimelineEntry.id).Nodup) ∧
    mergeAdditions [entryA, entryB, entryC] "b" [entryX, entryY]
      = [entryA, entryB, entryC].take 2 ++ [entryX, entryY]
          ++ [entryA, entryB, entryC].drop 2 := by
  refine ⟨⟨by decide, by decide, by decide⟩, ?_⟩
  exact (c1_collision_drop_amended [entryA, entryB, entryC] "b" [entryX, entryY] 1
    (by decide) (by decide) (by decide)).1

/-- C2: over any sequence of interpolation merges starting from
distinct entry ids, the entry-id sequence stays duplicate-free and the
previously present entries persist in their original relative order;
moreover deduplication is applied per candidate against the growing
sequence (`[X, X2]` with equal ids keeps only the first) and a
colliding candidate is discarded without overwriting the existing entry
(`[B2]` leaves `[A, B, C]` untouched). -/
theorem c2_insert_invariants (entries : List TimelineEntry)
    (ops : List (String × List TimelineEntry))
    (hnd : (entryIds entries).Nodup) :
    ((entryIds (applyMerges entries ops)).Nodup ∧
      List.Sublist entries (applyMerges entries ops)) ∧
    mergeAdditions [entryA] "a" [entryX, entryXColl] = [entryA, entryX] ∧
    mergeAdditions [entryA, entryB, entryC] "b" [entryBColl] = [entryA, entryB, entryC] := by
  refine ⟨applyMerges_invariants ops entries hnd, rfl, rfl⟩

/-- C2 witness: two successive merges on the `[A, B, C]` timeline keep
the ids distinct and the original entries in order. -/
theorem c2_insert_invariants_witness :
    (entryIds [entryA, entryB, entryC]).Nodup ∧
    ((entryIds (applyMerges [entryA, entryB, entryC]
        [("b", [entryX]), ("x", [entryY])])).Nodup ∧
      List.Sublist [entryA, entryB, entryC]
        (applyMerges [entryA, entryB, entryC] [("b", [entryX]), ("x", [entryY])])) := by
  exact ⟨by decide,
    (c2_insert_invariants [entryA, entryB, entryC] [("b", [entryX]), ("x", [entryY])]
      (by decide)).1⟩

/-- C3 (counterexample): a document that parses as JSON but lacks the
bundle shape — `{"seed_event": "x"}` — is not rejected up front: it
overwrites the seed event, the timeline (now `undefined`) and the
article ledger before the seed-summary derivation throws, so the
previous session is partially replaced even though a descriptive error
is surfaced. -/
theorem c3_import_no_shape_validation_counterexample :
    (handleImportJs jsSession0 (Except.ok shapelessDoc)).seedEvent = JsValue.str "x" ∧
    jsSession0.seedEvent = JsValue.str "old seed" ∧
    (handleImportJs jsSession0 (Except.ok shapelessDoc)).timeline = JsValue.undef ∧
    jsSession0.timeline ≠ JsValue.undef ∧
    (handleImportJs jsSession0 (Except.ok shapelessDoc)).articles = JsValue.obj [] ∧
    jsSession0.articles ≠ JsValue.obj [] ∧
    (handleImportJs jsSession0 (Except.ok shapelessDoc)).seedSummary
      = jsSession0.seedSummary ∧
    (handleImportJs jsSession0 (Except.ok shapelessDoc)).activeEntryId
      = jsSession0.activeEntryId ∧
    (handleImportJs jsSession0 (Except.ok shapelessDoc)).error
      = JsValue.str
          "Failed to import bundle: Cannot read properties of undefined (reading timeline_title)" := by
  refine ⟨rfl, rfl, rfl, ?_, rfl, ?_, rfl, rfl, rfl⟩
  · intro h
    exact JsValue.noConfusion h
  · intro h
    exact List.noConfusion (JsValue.obj.inj h)

/-- C3 (amended): only a document that cannot be read or parsed as JSON
is rejected atomically — then a descriptive error is surfaced and every
field of the previous session is left unchanged.  A document that
parses as JSON without the expected bundle shape is not rejected: the
field updates that ran before an exception keep their effect, leaving a
partial session. -/
theorem c3_import_parse_failure_amended (s : JsSession) (msg : String) :
    handleImportJs s (Except.error msg)
      = { s with error := JsValue.str ("Failed to import bundle: " ++ msg) } := rfl

/-- C4 (counterexample): `handleInterpolations` has no per-id status
gate: with the anchor's interpolation status already `loading` from a
first pending request, a second request for the same anchor still
proceeds to the Generation Client call. -/
theorem c4_no_pending_gate_counterexample :
    (interpolationBegin sessionABC entryB).2 = true ∧
    alookup (interpolationBegin sessionABC entryB).1.interpolationStatus "b"
      = some InterpStatus.loading ∧
    (interpolationBegin (interpolationBegin sessionABC entryB).1 entryB).2 = true := by
  exact ⟨rfl, rfl, rfl⟩

/-- C4 (amended): the expand-interval handler checks only that a
timeline and an api key are present — unlike article generation it has
no per-entry-id status gate, so whenever those guards pass a Generation
Client call is issued even while an interpolation for the same anchor
is still pending (concurrent duplicates are prevented only by the UI
disabling the entry's button while its status is "loading"). -/
theorem c4_no_pending_gate_amended (s : Session) (entry : TimelineEntry)
    (ht : s.timeline ≠ none) (hk : s.apiKey ≠ "") :
    (interpolationBegin s entry).2 = true := by
  unfold interpolationBegin
  cases hs : s.timeline with
  | none => exact absurd hs ht
  | some t => simp [hk]

/-- C4 witness: the amended theorem on the concrete session holding the
`[A, B, C]` timeline. -/
theorem c4_no_pending_gate_amended_witness :
    (sessionABC.timeline ≠ none ∧ sessionABC.apiKey ≠ "") ∧
    (interpolationBegin sessionABC entryB).2 = true := by
  refine ⟨⟨by decide, by decide⟩, ?_⟩
  exact c4_no_pending_gate_amended sessionABC entryB (by decide) (by decide)

/-- C5: with an api key, a timeline, and no article yet for the entry,
the first `handleSelectEntry` issues exactly one Generation Client call
and marks the entry `loading`; a second identical invocation while the
first is pending observes the `loading` state, makes no client call,
and leaves the session — the entry's article state in particular —
untouched; once the article is `ready` a further invocation makes no
call either, so two invocations in immediate succession make exactly
one call. -/
theorem c5_duplicate_request_single_call (s : Session) (entry : TimelineEntry)
    (hk : s.apiKey ≠ "") (ht : s.timeline ≠ none)
    (habs : alookup s.articles entry.id = none) :
    (selectEntryBegin s entry).2 = true ∧
    (selectEntryBegin (selectEntryBegin s entry).1 entry).2 = false ∧
    (selectEntryBegin (selectEntryBegin s entry).1 entry).1
      = (selectEntryBegin s entry).1 ∧
    (∀ article : Article,
      (selectEntryBegin
        (selectEntryComplete (selectEntryBegin s entry).1 entry.id (Except.ok article))
        entry).2 = false) ∧
    ((if (selectEntryBegin s entry).2 then 1 else 0)
      + (if (selectEntryBegin (selectEntryBegin s entry).1 entry).2 then 1 else 0) = 1) := by
  have h1 : selectEntryBegin s entry
      = ({ s with activeEntryId := some entry.id,
                  articles := aset s.articles entry.id ArticleStatus.loading }, true) := by
    simp [selectEntryBegin, hk, ht, habs]
  have h2 : (selectEntryBegin (selectEntryBegin s entry).1 entry)
      = ((selectEntryBegin s entry).1, false) := by
    rw [h1]
    simp [selectEntryBegin, hk, ht, alookup_aset_self]
  refine ⟨by rw [h1], by rw [h2], by rw [h2], ?_, by rw [h2, h1]; rfl⟩
  intro article
  rw [h1]
  simp [selectEntryComplete, selectEntryBegin, hk, ht, alookup_aset_self]

/-- C5 witness: the theorem on the concrete session holding the
`[A, B, C]` timeline and an empty article ledger, selecting entry `b`. -/
theorem c5_duplicate_request_single_call_witness :
    (sessionABC.apiKey ≠ "" ∧ sessionABC.timeline ≠ none ∧
      alookup sessionABC.articles entryB.id = none) ∧
    ((selectEntryBegin sessionABC entryB).2 = true ∧
     (selectEntryBegin (selectEntryBegin sessionABC entryB).1 entryB).2 = false) := by
  have h := c5_duplicate_request_single_call sessionABC entryB (by decide) (by decide) rfl
  exact ⟨⟨by decide, by decide, rfl⟩, h.1, h.2.1⟩

/-- C6: for a session with a timeline and distinct article-ledger keys,
the exported bundle's article mapping contains exactly the entries
whose status is `ready` (with their article data), and decoding that
bundle yields an article ledger where exactly those ids are `ready`
with identical data and every other id is absent. -/
theorem c6_bundle_roundtrip (s : Session) (t : Timeline) (generatedAt : String)
    (id : String) (ht : s.timeline = some t)
    (hnd : (s.articles.map Prod.fst).Nodup) :
    alookup (encodeBundle s t generatedAt).articles id
      = (match alookup s.articles id with
         | some (ArticleStatus.ready d) => some d
         | _ => none) ∧
    alookup (decodeBundle s (encodeBundle s t generatedAt)).articles id
      = (match alookup s.articles id with
         | some (ArticleStatus.ready d) => some (ArticleStatus.ready d)
         | _ => none) := by
  constructor
  · exact alookup_readyArticles s.articles id hnd
  · show alookup ((readyArticles s.articles).map fun kv =>
        (kv.1, ArticleStatus.ready kv.2)) id = _
    rw [alookup_map_ready, alookup_readyArticles s.articles id hnd]
    cases halo : alookup s.articles id with
    | none => rfl
    | some v => cases v <;> rfl

/-- C6 witness: the round-trip on a concrete session whose ledger has a
ready entry `a`, a loading entry `b` and a failed entry `c`, looked up
at the ready id `a`. -/
theorem c6_bundle_roundtrip_witness :
    (sessionMixed.timeline = some timelineABC ∧
      (sessionMixed.articles.map Prod.fst).Nodup) ∧
    alookup (decodeBundle sessionMixed
        (encodeBundle sessionMixed timelineABC "2026-01-01T00:00:00.000Z")).articles "a"
      = some (ArticleStatus.ready articleA) := by
  refine ⟨⟨rfl, by decide⟩, ?_⟩
  have h := (c6_bundle_roundtrip sessionMixed timelineABC "2026-01-01T00:00:00.000Z" "a"
    rfl (by decide)).2
  have halo : alookup sessionMixed.articles "a" = some (ArticleStatus.ready articleA) := rfl
  rw [halo] at h
  exact h

/-- C7 (counterexample): a schema failure — the generation client's
response content is not valid JSON — is not surfaced immediately after
one call: with the default 3 attempts the client is called 3 times,
sleeping 200 ms and then 400 ms between attempts, before the schema
error is surfaced. -/
theorem c7_schema_retry_counterexample :
    (groqChatWithRetry schemaFailCall 3).2.1 = 3 ∧
    (groqChatWithRetry schemaFailCall 3).2.2 = [200, 400] ∧
    (groqChatWithRetry schemaFailCall 3).1
      = Except.error (GroqError.schema "not json") ∧
    ¬ (groqChatWithRetry schemaFailCall 3).2.1 = 1 := by
  refine ⟨rfl, rfl, rfl, by decide⟩

/-- C7 (amended): every generation-client call is retried up to the
fixed attempt count with linearly increasing delay (`200 * attempt`
after the failed attempt number `attempt`), and the final attempt's
error is surfaced to the caller; no error kind short-circuits the loop
— schema errors are retried exactly like transport errors. -/
theorem c7_retry_uniform_amended {α : Type} (call : Nat → Except GroqError α)
    (attempts : Nat) (h1 : 1 ≤ attempts)
    (hfail : ∀ k, 1 ≤ k → k ≤ attempts → ∃ e, call k = Except.error e) :
    ∃ e, call attempts = Except.error e ∧
      groqChatWithRetry call attempts
        = (Except.error e, attempts,
           (List.range (attempts - 1)).map (fun j => 200 * (1 + j))) := by
  obtain ⟨r, rfl⟩ : ∃ r, attempts = r + 1 := ⟨attempts - 1, by omega⟩
  obtain ⟨e, he, hgo⟩ := groqRetryGo_allfail call r 1 0 []
    (fun k hk1 hk2 => hfail k hk1 (by omega))
  refine ⟨e, ?_, ?_⟩
  · rw [show r + 1 = 1 + r by omega]
    exact he
  · unfold groqChatWithRetry
    rw [hgo]
    simp

/-- C7 witness: the amended theorem on the always-schema-failing call
with the source's default of 3 attempts. -/
theorem c7_retry_uniform_amended_witness :
    ∃ e, schemaFailCall 3 = Except.error e ∧
      groqChatWithRetry schemaFailCall 3 = (Except.error e, 3, [200, 400]) := by
  obtain ⟨e, he, hr⟩ := c7_retry_uniform_amended schemaFailCall 3 (by omega)
    (fun k hk1 hk2 => ⟨GroqError.schema "not json", rfl⟩)
  refine ⟨e, he, ?_⟩
  rw [hr]
  rfl

/-- C8 (counterexample): an interpolation failure does not leave the
session-wide error field unchanged — on the concrete session (whose
error field is `none`) a failed interpolation for entry `b` sets the
session-wide error to the failure message. -/
theorem c8_error_scoping_counterexample :
    sessionABC.error = none ∧
    (interpolationComplete sessionABC timelineABC entryB
        (Except.error "Groq request failed: 500 oops")).error
      = some "Groq request failed: 500 oops" := by
  exact ⟨rfl, rfl⟩

/-- C8 (amended): an article-generation failure sets only that entry's
article state, leaving the session-wide error, the timeline, the
interpolation maps and every other entry untouched; an interpolation
failure sets that entry's interpolation error, clears its status to
idle and also sets the session-wide error field, leaving the article
ledger, the timeline and every other entry's interpolation state
untouched. -/
theorem c8_error_scoping_amended (s : Session) (t : Timeline) (entry : TimelineEntry)
    (msg : String) (id2 : String) (hne : id2 ≠ entry.id) :
    ((selectEntryComplete s entry.id (Except.error msg)).error = s.error ∧
     (selectEntryComplete s entry.id (Except.error msg)).timeline = s.timeline ∧
     (selectEntryComplete s entry.id (Except.error msg)).interpolationStatus
       = s.interpolationStatus ∧
     (selectEntryComplete s entry.id (Except.error msg)).interpolationErrors
       = s.interpolationErrors ∧
     (selectEntryComplete s entry.id (Except.error msg)).seedSummary = s.seedSummary ∧
     alookup (selectEntryComplete s entry.id (Except.error msg)).articles id2
       = alookup s.articles id2 ∧
     alookup (selectEntryComplete s entry.id (Except.error msg)).articles entry.id
       = some (ArticleStatus.error msg)) ∧
    ((interpolationComplete s t entry (Except.error msg)).error = some msg ∧
     (interpolationComplete s t entry (Except.error msg)).articles = s.articles ∧
     (interpolationComplete s t entry (Except.error msg)).timeline = s.timeline ∧
     alookup (interpolationComplete s t entry (Except.error msg)).interpolationStatus id2
       = alookup s.interpolationStatus id2 ∧
     alookup (interpolationComplete s t entry (Except.error msg)).interpolationErrors id2
       = alookup s.interpolationErrors id2 ∧
     alookup (interpolationComplete s t entry (Except.error msg)).interpolationErrors entry.id
       = some (some msg) ∧
     alookup (interpolationComplete s t entry (Except.error msg)).interpolationStatus entry.id
       = some InterpStatus.idle) := by
  refine ⟨⟨rfl, rfl, rfl, rfl, rfl, ?_, ?_⟩, rfl, rfl, rfl, ?_, ?_, ?_, ?_⟩
  · exact alookup_aset_ne s.articles entry.id id2 (ArticleStatus.error msg) hne
  · exact alookup_aset_self s.articles entry.id (ArticleStatus.error msg)
  · exact alookup_aset_ne s.interpolationStatus entry.id id2 InterpStatus.idle hne
  · exact alookup_aset_ne s.interpolationErrors entry.id id2 (some msg) hne
  · exact alookup_aset_self s.interpolationErrors entry.id (some msg)
  · exact alookup_aset_self s.interpolationStatus entry.id InterpStatus.idle

/-- C8 witness: the amended theorem on the concrete `[A, B, C]`
session, failing entry `b` and observing the unrelated id `a`. -/
theorem c8_error_scoping_amended_witness :
    ("a" ≠ entryB.id) ∧
    (interpolationComplete sessionABC timelineABC entryB (Except.error "boom")).error
      = some "boom" ∧
    alookup (interpolationComplete sessionABC timelineABC entryB
        (Except.error "boom")).interpolationErrors "a"
      = alookup sessionABC.interpolationErrors "a" ∧
    (selectEntryComplete sessionABC entryB.id (Except.error "boom")).error
      = sessionABC.error := by
  have h := c8_error_scoping_amended sessionABC timelineABC entryB "boom" "a" (by decide)
  exact ⟨by decide, h.2.1, h.2.2.2.2.2.1, h.1.1⟩

/-- C9: the derived seed summary follows the deterministic recipe —
trim and collapse the seed's whitespace (placeholder when empty), take
the trimmed timeline title and the first entry's anchor date or else
era, drop empty parts, join with " • " and uppercase.  In particular
seed "  the   moon landing  " with title "Lunar Silence" and first
anchor date "1969-07-21" gives
"THE MOON LANDING • LUNAR SILENCE • 1969-07-21"; an all-whitespace
seed falls back to the placeholder, a missing anchor date falls back to
the era, and empty parts are dropped from the join. -/
theorem c9_seed_summary_example :
    createSeedSummary "  the   moon landing  " lunarTimeline
      = "THE MOON LANDING • LUNAR SILENCE • 1969-07-21" ∧
    createSeedSummary "   " eraOnlyTimeline
      = "UNSPECIFIED COUNTERFACTUAL • TITLE • AUTUMN 1957" ∧
    createSeedSummary "seed" blankTimeline = "SEED" := by
  exact ⟨rfl, rfl, rfl⟩

/-- C10: on every completion path of an interpolation request —
success with entries, success with zero entries, or failure — the
anchor entry's interpolation status is set back to idle when the
request settles, so no stale `loading` marker survives; a failure is
recorded in the separate per-entry error map (status never carries it),
and a successful completion leaves the error map untouched. -/
theorem c10_interpolation_status_settles (s : Session) (t : Timeline)
    (entry : TimelineEntry) :
    (∀ result : Except String (List TimelineEntry),
      alookup (interpolationComplete s t entry result).interpolationStatus entry.id
        = some InterpStatus.idle) ∧
    (∀ msg : String,
      alookup (interpolationComplete s t entry (Except.error msg)).interpolationErrors
          entry.id
        = some (some msg)) ∧
    (∀ additions : List TimelineEntry,
      (interpolationComplete s t entry (Except.ok additions)).interpolationErrors
        = s.interpolationErrors) := by
  refine ⟨?_, ?_, ?_⟩
  · intro result
    cases result with
    | ok additions =>
        by_cases he : additions.isEmpty <;>
          simp [interpolationComplete, he, alookup_aset_self]
    | error msg => simp [interpolationComplete, alookup_aset_self]
  · intro msg
    simp [interpolationComplete, alookup_aset_self]
  · intro additions
    by_cases he : additions.isEmpty <;> simp [interpolationComplete, he]

end Hauntoloscope
